import Mathlib

/-!
# Verification of the `effect-env` combinators and aggregator

Shallow embedding of `src/src/index.ts`: the `Env.*` value combinators and the
`makeEnv` shape aggregator are translated from the source.  The underlying
`Config` primitives (`Config.string`, `Config.withDefault`, `Config.mapOrFail`,
`Config.all`), the `ConfigError` taxonomy and the `Redacted` wrapper belong to
the external `effect` runtime, which is not part of this repository; they are
modelled from the specification's description of their contracts.  Host-runtime
parsing that the spec explicitly delegates (numeric parsing, URL-syntax
validation) is abstracted as a `Host` parameter.
-/

namespace EffectEnv

/-- Modelled from the spec: the error taxonomy of the external runtime's
`ConfigError` — `Missing` (a required variable was not present) and
`InvalidData` (present but failed conversion/validation, carrying a
human-readable message). -/
inductive ConfigError where
  | Missing (name : String)
  | InvalidData (path : List String) (message : String)
deriving Repr, DecidableEq

/-- Modelled from the spec: the external runtime's `Redacted` wrapper — "a
value wrapped to suppress accidental display while remaining explicitly
retrievable". -/
structure Redacted where
  value : String
deriving Repr, DecidableEq

/-- Modelled from the spec: the default string conversion of a `Redacted`
value is a fixed placeholder, independent of the wrapped secret. -/
def Redacted.display (_ : Redacted) : String := "<redacted>"

/-- Modelled from the spec: the explicit unwrap operation
(`Redacted.value(secret)` in the source's doc comment) reveals the raw
string. -/
def Redacted.unwrap (r : Redacted) : String := r.value

/-- The universal value type of evaluated descriptors: raw strings, host
numbers, booleans, redacted secrets, and the records assembled by the shape
aggregator. -/
inductive Value where
  | str (s : String)
  | num (q : ℚ)
  | bool (b : Bool)
  | redactedVal (r : Redacted)
  | record (fields : List (String × Value))
deriving Repr

/-- Modelled from the spec: "numeric-format parsing … and URL-syntax
validation are delegated to the host runtime"; the host is abstracted as a
numeric parser (rationals stand in for the host's numeric type) and a URL
validity predicate. -/
structure Host where
  parseNumber : String → Option ℚ
  isURL : String → Bool

/-- Modelled from the spec: the boolean vocabulary — truthy is exactly
"true", "yes", "on", "1"; falsy is exactly "false", "no", "off", "0"; any
other string is an error. -/
def parseBoolean (s : String) : Option Bool :=
  if s = "true" ∨ s = "yes" ∨ s = "on" ∨ s = "1" then some true
  else if s = "false" ∨ s = "no" ∨ s = "off" ∨ s = "0" then some false
  else none

/-- Modelled from the spec: the external runtime's `Config` descriptor — an
immutable, composable description of how to read, default, validate and
combine environment values.  `withDefault` carries the substituted value,
`mapOrFail` carries the validation closure, `all` combines a field mapping
into a record descriptor (as `makeEnv` uses it). -/
inductive Config where
  | string (name : String)
  | number (name : String)
  | boolean (name : String)
  | redacted (name : String)
  | withDefault (c : Config) (d : Value)
  | mapOrFail (c : Config) (f : Value → Except ConfigError Value)
  | all (fields : List (String × Config))

/-- Whether an error is a missing-data error; modelled from the spec's
with-default rows: the default is applied when the variable is unset, while a
set-but-invalid value still fails. -/
def ConfigError.isMissingOnly : ConfigError → Bool
  | .Missing _ => true
  | .InvalidData _ _ => false

mutual

/-- Evaluation of a descriptor against an environment snapshot
(`env : String → Option String`, the process environment table, looked up
case-sensitively and exactly).  Modelled from the spec: evaluation is
synchronous, pure, and only reads the environment. -/
def evalConfig (h : Host) (env : String → Option String) :
    Config → Except ConfigError Value
  | .string name =>
      match env name with
      | some s => .ok (.str s)
      | none => .error (.Missing name)
  | .number name =>
      match env name with
      | some s =>
          match h.parseNumber s with
          | some q => .ok (.num q)
          | none => .error (.InvalidData [] "Expected a number")
      | none => .error (.Missing name)
  | .boolean name =>
      match env name with
      | some s =>
          match parseBoolean s with
          | some b => .ok (.bool b)
          | none => .error (.InvalidData [] "Expected a boolean")
      | none => .error (.Missing name)
  | .redacted name =>
      match env name with
      | some s => .ok (.redactedVal (Redacted.mk s))
      | none => .error (.Missing name)
  | .withDefault c d =>
      match evalConfig h env c with
      | .ok v => .ok v
      | .error e => if e.isMissingOnly then .ok d else .error e
  | .mapOrFail c f =>
      match evalConfig h env c with
      | .ok v => f v
      | .error e => .error e
  | .all fields => (evalFields h env fields).map Value.record

/-- Field-by-field evaluation of a shape, first failure propagated (the
combination primitive's aggregation, modelled from the spec: "if any field
fails, the composite descriptor fails"). -/
def evalFields (h : Host) (env : String → Option String) :
    List (String × Config) → Except ConfigError (List (String × Value))
  | [] => .ok []
  | (k, c) :: rest =>
      match evalConfig h env c with
      | .error e => .error e
      | .ok v =>
          match evalFields h env rest with
          | .error e => .error e
          | .ok vs => .ok ((k, v) :: vs)

end

/-- `Env.string` from src/src/index.ts: a required string configuration. -/
def Env.string (name : String) : Config := Config.string name

/-- `Env.number` from src/src/index.ts: a required number configuration. -/
def Env.number (name : String) : Config := Config.number name

/-- `Env.boolean` from src/src/index.ts: a required boolean configuration. -/
def Env.boolean (name : String) : Config := Config.boolean name

/-- `Env.redacted` from src/src/index.ts: a required secret configuration. -/
def Env.redacted (name : String) : Config := Config.redacted name

/-- `Env.stringOr` from src/src/index.ts:
`Config.string(name).pipe(Config.withDefault(defaultValue))`. -/
def Env.stringOr (name defaultValue : String) : Config :=
  Config.withDefault (Config.string name) (Value.str defaultValue)

/-- `Env.numberOr` from src/src/index.ts:
`Config.number(name).pipe(Config.withDefault(defaultValue))`. -/
def Env.numberOr (name : String) (defaultValue : ℚ) : Config :=
  Config.withDefault (Config.number name) (Value.num defaultValue)

/-- `Env.booleanOr` from src/src/index.ts:
`Config.boolean(name).pipe(Config.withDefault(defaultValue))`. -/
def Env.booleanOr (name : String) (defaultValue : Bool) : Config :=
  Config.withDefault (Config.boolean name) (Value.bool defaultValue)

/-- The validation closure shared by `Env.literal` and `Env.literalOr` in
src/src/index.ts: `values.includes(s) ? Either.right(s) :
Either.left(ConfigError.InvalidData([], "Expected one of: " + join))`. -/
def literalCheck (values : List String) : Value → Except ConfigError Value :=
  fun v =>
    match v with
    | .str s =>
        if values.contains s then .ok (.str s)
        else .error (.InvalidData []
          ("Expected one of: " ++ String.intercalate ", " values))
    | _ => .error (.InvalidData []
        ("Expected one of: " ++ String.intercalate ", " values))

/-- `Env.literal` from src/src/index.ts:
`Config.string(name).pipe(Config.mapOrFail(check))`. -/
def Env.literal (name : String) (values : List String) : Config :=
  Config.mapOrFail (Config.string name) (literalCheck values)

/-- `Env.literalOr` from src/src/index.ts:
`Config.string(name).pipe(Config.withDefault(defaultValue), Config.mapOrFail(check))`
— note the pipe order: the default is substituted first, and the resulting
value (default included) then passes through the allowed-list check. -/
def Env.literalOr (name defaultValue : String) (values : List String) : Config :=
  Config.mapOrFail
    (Config.withDefault (Config.string name) (Value.str defaultValue))
    (literalCheck values)

/-- The URL validation closure of `Env.url` in src/src/index.ts: `new URL(s)`
succeeding yields `Either.right(s)` (the raw string, unchanged), failing
yields `InvalidData([], "Invalid URL")`; URL-syntax validity itself is the
host runtime's. -/
def urlCheck (h : Host) : Value → Except ConfigError Value :=
  fun v =>
    match v with
    | .str s =>
        if h.isURL s then .ok (.str s)
        else .error (.InvalidData [] "Invalid URL")
    | _ => .error (.InvalidData [] "Invalid URL")

/-- `Env.url` from src/src/index.ts:
`Config.string(name).pipe(Config.mapOrFail(urlCheck))`. -/
def Env.url (h : Host) (name : String) : Config :=
  Config.mapOrFail (Config.string name) (urlCheck h)

/-- The service handle returned by `makeEnv` in src/src/index.ts: the
identifier (passed to `Context.GenericTag`) and the composite descriptor
(`Config.all(shape)`). -/
structure EnvService where
  id : String
  config : Config

/-- `makeEnv` from src/src/index.ts: builds the composite descriptor
`Config.all(shape)` and the handle; construction is pure — no environment is
read until the descriptor is evaluated. -/
def makeEnv (id : String) (shape : List (String × Config)) : EnvService :=
  { id := id, config := Config.all shape }

/-- The handle's `Default` layer, activated: modelled from the spec, it
"triggers evaluation of the composite descriptor against the live environment
snapshot". -/
def EnvService.resolveDefault (svc : EnvService) (h : Host)
    (env : String → Option String) : Except ConfigError Value :=
  evalConfig h env svc.config

/-- Success test on an evaluation result. -/
def isOkE {α : Type} : Except ConfigError α → Bool
  | .ok _ => true
  | .error _ => false

/-- A concrete host for concrete evaluations: no string parses as a number,
only "https://example.com" is a valid URL. -/
def host0 : Host :=
  { parseNumber := fun _ => none
    isURL := fun s => s = "https://example.com" }

/-- The empty environment snapshot. -/
def emptyEnv : String → Option String := fun _ => none

/-- The spec's aggregation example: `{a: required string "A", b: numberOr "B" 5}`. -/
def demoShape : List (String × Config) :=
  [("a", Env.string "A"), ("b", Env.numberOr "B" 5)]

/-- The spec's aggregation example environment: `A=hello`, `B` unset. -/
def demoEnv : String → Option String :=
  fun n => if n = "A" then some "hello" else none

/-! ## Theorems -/

/-- C1 (counterexample): the claim that `literalOr` yields a default outside
the allowed set without checking it is false on the code: with variable `X`
unset, default `"bad"` and allowed values `["a", "b"]`, evaluation fails with
`InvalidData` instead of yielding `"bad"`. -/
theorem literalOr_bypass_refuted :
    evalConfig host0 emptyEnv (Env.literalOr "X" "bad" ["a", "b"])
      = .error (.InvalidData [] "Expected one of: a, b")
    ∧ evalConfig host0 emptyEnv (Env.literalOr "X" "bad" ["a", "b"])
      ≠ .ok (.str "bad") := by
  refine ⟨rfl, ?_⟩
  intro hcon
  rw [show evalConfig host0 emptyEnv (Env.literalOr "X" "bad" ["a", "b"])
      = .error (.InvalidData [] "Expected one of: a, b") from rfl] at hcon
  exact Except.noConfusion hcon

/-- C1 (amended): when the variable is unset, `literalOr` substitutes the
default and then runs the allowed-list check on it: evaluation yields the
default exactly when the default is a member of the allowed-value list, and
fails with `InvalidData` otherwise — the check is not bypassed. -/
theorem literalOr_unset_checks_default (h : Host) (env : String → Option String)
    (name d : String) (values : List String) (_hne : values ≠ [])
    (hunset : env name = none) :
    evalConfig h env (Env.literalOr name d values) =
      (if values.contains d then .ok (.str d)
       else .error (.InvalidData []
         ("Expected one of: " ++ String.intercalate ", " values))) := by
  simp [Env.literalOr, evalConfig, hunset, ConfigError.isMissingOnly,
    literalCheck]

/-- C1 (witness): the amended theorem at variable `X` unset, default `"a"`,
allowed values `["a", "b"]` — the default is in the list and is returned. -/
theorem literalOr_unset_checks_default_witness :
    evalConfig host0 emptyEnv (Env.literalOr "X" "a" ["a", "b"]) =
      (if ["a", "b"].contains "a" then .ok (.str "a")
       else .error (.InvalidData []
         ("Expected one of: " ++ String.intercalate ", " ["a", "b"]))) :=
  literalOr_unset_checks_default host0 emptyEnv "X" "a" ["a", "b"]
    (by simp) rfl

/-- C6: `stringOr` yields exactly the default when the variable is unset,
yields the raw string untransformed when it is set, and never fails. -/
theorem stringOr_default_or_raw (h : Host) (env : String → Option String)
    (name d : String) :
    (env name = none → evalConfig h env (Env.stringOr name d) = .ok (.str d))
    ∧ (∀ s, env name = some s →
        evalConfig h env (Env.stringOr name d) = .ok (.str s))
    ∧ ∃ v, evalConfig h env (Env.stringOr name d) = .ok v := by
  refine ⟨fun hunset => ?_, fun s hset => ?_, ?_⟩
  · simp [Env.stringOr, evalConfig, hunset, ConfigError.isMissingOnly]
  · simp [Env.stringOr, evalConfig, hset]
  · cases hlook : env name with
    | none => exact ⟨.str d, by simp [Env.stringOr, evalConfig, hlook,
        ConfigError.isMissingOnly]⟩
    | some s => exact ⟨.str s, by simp [Env.stringOr, evalConfig, hlook]⟩

/-- C7: when the variable is set to raw value `s`, `redacted` yields the
wrapped secret; the wrapper's default string conversion is a constant
independent of the secret (so it reveals nothing of it), while the explicit
unwrap operation returns exactly the original raw string. -/
theorem redacted_hides_and_unwraps (h : Host) (env : String → Option String)
    (name s : String) (hset : env name = some s) :
    evalConfig h env (Env.redacted name) = .ok (.redactedVal (Redacted.mk s))
    ∧ (∀ t, Redacted.display (Redacted.mk s) = Redacted.display (Redacted.mk t))
    ∧ Redacted.unwrap (Redacted.mk s) = s := by
  refine ⟨?_, fun t => rfl, rfl⟩
  simp [Env.redacted, evalConfig, hset]

/-- C7 (witness): the theorem at variable `SECRET` set to `"hunter2"`. -/
theorem redacted_hides_and_unwraps_witness :
    evalConfig host0 (fun n => if n = "SECRET" then some "hunter2" else none)
        (Env.redacted "SECRET")
      = .ok (.redactedVal (Redacted.mk "hunter2"))
    ∧ (∀ t, Redacted.display (Redacted.mk "hunter2")
        = Redacted.display (Redacted.mk t))
    ∧ Redacted.unwrap (Redacted.mk "hunter2") = "hunter2" :=
  redacted_hides_and_unwraps host0
    (fun n => if n = "SECRET" then some "hunter2" else none) "SECRET" "hunter2"
    (by simp)

/-- C10: the composite descriptor of the empty shape evaluates to the empty
record under every host and every environment; and `makeEnv` is pure
construction — for every shape it only assembles the composite descriptor
`Config.all shape` and stores the identifier, taking no environment input and
never failing. -/
theorem makeEnv_empty_shape_total (h : Host) (env : String → Option String)
    (i : String) (fields : List (String × Config)) :
    evalConfig h env (makeEnv i []).config = .ok (.record [])
    ∧ (makeEnv i fields).config = Config.all fields
    ∧ (makeEnv i fields).id = i :=
  ⟨rfl, rfl, rfl⟩

/-- C3: with the variable set to raw value `s`, `boolean` yields `true`
exactly when `s` is one of "true", "yes", "on", "1", yields `false` exactly
when `s` is one of "false", "no", "off", "0", and fails with `InvalidData` for
every other string. -/
theorem boolean_vocabulary (h : Host) (env : String → Option String)
    (name s : String) (hset : env name = some s) :
    (evalConfig h env (Env.boolean name) = .ok (.bool true) ↔
        s ∈ ["true", "yes", "on", "1"])
    ∧ (evalConfig h env (Env.boolean name) = .ok (.bool false) ↔
        s ∈ ["false", "no", "off", "0"])
    ∧ (s ∉ ["true", "yes", "on", "1"] → s ∉ ["false", "no", "off", "0"] →
        evalConfig h env (Env.boolean name)
          = .error (.InvalidData [] "Expected a boolean")) := by
  by_cases h1 : s = "true" ∨ s = "yes" ∨ s = "on" ∨ s = "1"
  · have hp : parseBoolean s = some true := by simp [parseBoolean, h1]
    rcases h1 with rfl | rfl | rfl | rfl <;>
      simp [Env.boolean, evalConfig, hset, hp]
  · by_cases h2 : s = "false" ∨ s = "no" ∨ s = "off" ∨ s = "0"
    · have hp : parseBoolean s = some false := by simp [parseBoolean, h1, h2]
      rcases h2 with rfl | rfl | rfl | rfl <;>
        simp [Env.boolean, evalConfig, hset, hp]
    · have hp : parseBoolean s = none := by simp [parseBoolean, h1, h2]
      simp [Env.boolean, evalConfig, hset, hp, h1, h2]

/-- C3 (witness): the theorem at variable `DEBUG` set to `"maybe"`, a string
in neither vocabulary. -/
theorem boolean_vocabulary_witness :
    (evalConfig host0 (fun n => if n = "DEBUG" then some "maybe" else none)
        (Env.boolean "DEBUG") = .ok (.bool true) ↔
        "maybe" ∈ ["true", "yes", "on", "1"])
    ∧ (evalConfig host0 (fun n => if n = "DEBUG" then some "maybe" else none)
        (Env.boolean "DEBUG") = .ok (.bool false) ↔
        "maybe" ∈ ["false", "no", "off", "0"])
    ∧ ("maybe" ∉ ["true", "yes", "on", "1"] →
        "maybe" ∉ ["false", "no", "off", "0"] →
        evalConfig host0 (fun n => if n = "DEBUG" then some "maybe" else none)
          (Env.boolean "DEBUG")
          = .error (.InvalidData [] "Expected a boolean")) :=
  boolean_vocabulary host0 (fun n => if n = "DEBUG" then some "maybe" else none)
    "DEBUG" "maybe" (by simp)

/-- C4: with the variable set to raw value `s`, `literal` succeeds with the
raw string exactly when `s` is string-equal to a member of the allowed-value
list, fails with `InvalidData` for every other set value, and fails with
`Missing` when the variable is unset. -/
theorem literal_exact_match (h : Host) (env : String → Option String)
    (name : String) (values : List String) (_hne : values ≠ []) :
    (∀ s, env name = some s →
        (evalConfig h env (Env.literal name values) = .ok (.str s) ↔
          s ∈ values))
    ∧ (∀ s, env name = some s → s ∉ values →
        evalConfig h env (Env.literal name values)
          = .error (.InvalidData []
              ("Expected one of: " ++ String.intercalate ", " values)))
    ∧ (env name = none →
        evalConfig h env (Env.literal name values)
          = .error (.Missing name)) := by
  refine ⟨fun s hset => ?_, fun s hset hnotmem => ?_, fun hunset => ?_⟩
  · by_cases hmem : s ∈ values
    · simp [Env.literal, evalConfig, hset, literalCheck, hmem]
    · simp [Env.literal, evalConfig, hset, literalCheck, hmem]
  · simp [Env.literal, evalConfig, hset, literalCheck, hnotmem]
  · simp [Env.literal, evalConfig, hunset]

/-- C4 (witness): the theorem at variable `LOG_LEVEL` and allowed values
`["debug", "info"]` under an environment holding the case-variant near-match
`"Info"`. -/
theorem literal_exact_match_witness :
    (∀ s, (fun n => if n = "LOG_LEVEL" then some "Info" else none) "LOG_LEVEL"
          = some s →
        (evalConfig host0 (fun n => if n = "LOG_LEVEL" then some "Info" else none)
            (Env.literal "LOG_LEVEL" ["debug", "info"]) = .ok (.str s) ↔
          s ∈ ["debug", "info"]))
    ∧ (∀ s, (fun n => if n = "LOG_LEVEL" then some "Info" else none) "LOG_LEVEL"
          = some s → s ∉ ["debug", "info"] →
        evalConfig host0 (fun n => if n = "LOG_LEVEL" then some "Info" else none)
            (Env.literal "LOG_LEVEL" ["debug", "info"])
          = .error (.InvalidData []
              ("Expected one of: " ++ String.intercalate ", " ["debug", "info"])))
    ∧ ((fun n => if n = "LOG_LEVEL" then some "Info" else none) "LOG_LEVEL"
          = none →
        evalConfig host0 (fun n => if n = "LOG_LEVEL" then some "Info" else none)
            (Env.literal "LOG_LEVEL" ["debug", "info"])
          = .error (.Missing "LOG_LEVEL")) :=
  literal_exact_match host0
    (fun n => if n = "LOG_LEVEL" then some "Info" else none)
    "LOG_LEVEL" ["debug", "info"] (by simp)

/-- C5: with the variable set to raw value `s`, `url` succeeds with the raw
string unchanged exactly when the host's URL parser accepts `s`, fails with
`InvalidData` when it rejects `s`, and fails with `Missing` when the variable
is unset — for every host URL-validity predicate. -/
theorem url_raw_iff_valid (h : Host) (env : String → Option String)
    (name : String) :
    (∀ s, env name = some s →
        (evalConfig h env (Env.url h name) = .ok (.str s) ↔ h.isURL s = true))
    ∧ (∀ s, env name = some s → h.isURL s = false →
        evalConfig h env (Env.url h name)
          = .error (.InvalidData [] "Invalid URL"))
    ∧ (env name = none →
        evalConfig h env (Env.url h name) = .error (.Missing name)) := by
  refine ⟨fun s hset => ?_, fun s hset hbad => ?_, fun hunset => ?_⟩
  · cases hu : h.isURL s with
    | true => simp [Env.url, evalConfig, hset, urlCheck, hu]
    | false => simp [Env.url, evalConfig, hset, urlCheck, hu]
  · simp [Env.url, evalConfig, hset, urlCheck, hbad]
  · simp [Env.url, evalConfig, hunset]

/-- Evaluating a composite descriptor is field-by-field evaluation followed by
record assembly. -/
theorem evalConfig_all_eq (h : Host) (env : String → Option String)
    (fields : List (String × Config)) :
    evalConfig h env (Config.all fields)
      = (evalFields h env fields).map Value.record := rfl

/-- `isOkE` is unchanged by mapping over a success. -/
theorem isOkE_map {α β : Type} (f : α → β) (e : Except ConfigError α) :
    isOkE (e.map f) = isOkE e := by
  cases e <;> rfl

/-- Complete characterization of successful field evaluation: the resolved
list pairs each field name with the field's own evaluation result. -/
theorem evalFields_ok_iff (h : Host) (env : String → Option String)
    (fields : List (String × Config)) (vs : List (String × Value)) :
    evalFields h env fields = .ok vs ↔
      List.Forall₂ (fun p q => p.1 = q.1 ∧ evalConfig h env p.2 = .ok q.2)
        fields vs := by
  induction fields generalizing vs with
  | nil =>
      constructor
      · intro hok
        have hvs : vs = [] := by simpa [evalFields, eq_comm] using hok
        subst hvs
        exact List.Forall₂.nil
      · intro hf
        cases hf
        rfl
  | cons kc rest ih =>
      obtain ⟨k, c⟩ := kc
      constructor
      · intro hok
        cases hc : evalConfig h env c with
        | error e =>
            rw [show evalFields h env ((k, c) :: rest) = .error e from by
              simp [evalFields, hc]] at hok
            exact absurd hok (by simp)
        | ok v =>
            cases hr : evalFields h env rest with
            | error e =>
                rw [show evalFields h env ((k, c) :: rest) = .error e from by
                  simp [evalFields, hc, hr]] at hok
                exact absurd hok (by simp)
            | ok vs' =>
                rw [show evalFields h env ((k, c) :: rest)
                    = .ok ((k, v) :: vs') from by simp [evalFields, hc, hr]]
                  at hok
                have hvs := (Except.ok.inj hok).symm
                subst hvs
                exact List.Forall₂.cons ⟨rfl, hc⟩ ((ih vs').mp hr)
      · intro hf
        cases hf with
        | @cons _ b _ l hhead htail =>
            obtain ⟨b1, b2⟩ := b
            obtain ⟨hk, hcv⟩ := hhead
            subst hk
            simp [evalFields, hcv, (ih l).mpr htail]

/-- Field evaluation succeeds exactly when every field's own evaluation
succeeds (so one failing field fails the whole shape, and there is no
partial-success result). -/
theorem evalFields_isOk_iff (h : Host) (env : String → Option String)
    (fields : List (String × Config)) :
    isOkE (evalFields h env fields) = true ↔
      ∀ p ∈ fields, isOkE (evalConfig h env p.2) = true := by
  induction fields with
  | nil => simp [evalFields, isOkE]
  | cons kc rest ih =>
      obtain ⟨k, c⟩ := kc
      cases hc : evalConfig h env c with
      | error e =>
          simp [evalFields, hc, isOkE, List.forall_mem_cons]
      | ok v =>
          rw [show (∀ p ∈ (k, c) :: rest, isOkE (evalConfig h env p.2) = true)
              ↔ isOkE (evalConfig h env c) = true
                ∧ ∀ p ∈ rest, isOkE (evalConfig h env p.2) = true
            from List.forall_mem_cons, ← ih]
          cases hr : evalFields h env rest with
          | error e => simp [evalFields, hc, hr, isOkE]
          | ok vs => simp [evalFields, hc, hr, isOkE]

/-- C2: the composite descriptor built by `makeEnv` succeeds exactly when
every field succeeds, yielding the record that pairs each field name with that
field's resolved value; if any field fails the whole evaluation fails, with no
partial result.  For the spec's example shape `{a: string "A", b: numberOr "B"
5}`: with `A=hello` and `B` unset the result is `{a: "hello", b: 5}`, and with
`A` unset the result is `Missing "A"` whatever `B` holds. -/
theorem makeEnv_aggregation (h : Host) (env env2 : String → Option String)
    (i : String) (fields : List (String × Config)) (hA : env2 "A" = none) :
    (∀ r, evalConfig h env (makeEnv i fields).config = .ok r ↔
        ∃ vs, List.Forall₂
            (fun p q => p.1 = q.1 ∧ evalConfig h env p.2 = .ok q.2) fields vs
          ∧ r = .record vs)
    ∧ (isOkE (evalConfig h env (makeEnv i fields).config) = true ↔
        ∀ p ∈ fields, isOkE (evalConfig h env p.2) = true)
    ∧ evalConfig h demoEnv (makeEnv "Demo" demoShape).config
        = .ok (.record [("a", .str "hello"), ("b", .num 5)])
    ∧ evalConfig h env2 (makeEnv "Demo" demoShape).config
        = .error (.Missing "A") := by
  refine ⟨fun r => ?_, ?_, rfl, ?_⟩
  · rw [show (makeEnv i fields).config = Config.all fields from rfl,
      evalConfig_all_eq]
    cases hev : evalFields h env fields with
    | ok vs => simp [Except.map, ← evalFields_ok_iff, hev, eq_comm]
    | error e => simp [Except.map, ← evalFields_ok_iff, hev]
  · rw [show (makeEnv i fields).config = Config.all fields from rfl,
      evalConfig_all_eq, isOkE_map]
    exact evalFields_isOk_iff h env fields
  · simp [makeEnv, demoShape, evalConfig, evalFields, Except.map, Env.string,
      Env.numberOr, hA]

/-- C2 (witness): the theorem at the example shape, with the success
environment `A=hello, B` unset and the failure environment `A` unset while `B`
holds the non-numeric string "oops". -/
theorem makeEnv_aggregation_witness :
    (∀ r, evalConfig host0 demoEnv (makeEnv "Demo" demoShape).config = .ok r ↔
        ∃ vs, List.Forall₂
            (fun p q => p.1 = q.1 ∧ evalConfig host0 demoEnv p.2 = .ok q.2)
            demoShape vs
          ∧ r = .record vs)
    ∧ (isOkE (evalConfig host0 demoEnv (makeEnv "Demo" demoShape).config) = true ↔
        ∀ p ∈ demoShape, isOkE (evalConfig host0 demoEnv p.2) = true)
    ∧ evalConfig host0 demoEnv (makeEnv "Demo" demoShape).config
        = .ok (.record [("a", .str "hello"), ("b", .num 5)])
    ∧ evalConfig host0 (fun n => if n = "B" then some "oops" else none)
          (makeEnv "Demo" demoShape).config
        = .error (.Missing "A") :=
  makeEnv_aggregation host0 demoEnv
    (fun n => if n = "B" then some "oops" else none) "Demo" demoShape (by simp)

/-- C8: evaluation of the composite descriptor built by `makeEnv` is a pure,
deterministic function of the environment snapshot: evaluating it twice
against the same snapshot yields equal results, and two snapshots that agree
on every variable yield equal results. -/
theorem makeEnv_eval_deterministic (h : Host) (env env' : String → Option String)
    (i : String) (fields : List (String × Config))
    (hagree : ∀ n, env n = env' n) :
    evalConfig h env (makeEnv i fields).config
        = evalConfig h env (makeEnv i fields).config
    ∧ evalConfig h env (makeEnv i fields).config
        = evalConfig h env' (makeEnv i fields).config := by
  refine ⟨rfl, ?_⟩
  rw [funext hagree]

/-- C8 (witness): the theorem at the example shape and two syntactically
different but pointwise-equal snapshots. -/
theorem makeEnv_eval_deterministic_witness :
    evalConfig host0 demoEnv (makeEnv "Demo" demoShape).config
        = evalConfig host0 demoEnv (makeEnv "Demo" demoShape).config
    ∧ evalConfig host0 demoEnv (makeEnv "Demo" demoShape).config
        = evalConfig host0 (fun n => if n = "A" then some "hello" else none)
            (makeEnv "Demo" demoShape).config :=
  makeEnv_eval_deterministic host0 demoEnv
    (fun n => if n = "A" then some "hello" else none) "Demo" demoShape
    (fun _ => rfl)

end EffectEnv
